import Mathlib

/-!
Verification of the py-github XML decoding library (src/github.py).

The development shallowly embeds the library's decoding core:
an XML DOM tree model (as exposed by xml.dom.minidom), the mutable
type registry `_types`, the generic parser `_parse`, the array parser
`_parseArray`, the record constructor `BaseResponse.__init__`, and the
endpoint operations that the claims mention (issue listing, branch
listing, user and repository search).

Python exceptions are modelled with `Except`: the descriptive
"Can't parse" Exception, the bare KeyError from an absent dict key,
the AttributeError from accessing `.data` on None or on an Element,
and the ValueError from a failed int()/float() conversion are kept as
distinct error constructors, since the claims distinguish them.
-/

/-! ## XML DOM model

An xml.dom.minidom node is either a Text node carrying character data
or an Element with a tag name (localName), attributes and child nodes.
The two inductives are mutual so that all recursion over the tree is
structural.
-/

mutual
inductive Node where
  | text (data : String)
  | elem (localName : String) (attrs : List (String × String)) (childNodes : NodeList)
deriving Repr, DecidableEq
inductive NodeList where
  | nil
  | cons (hd : Node) (tl : NodeList)
deriving Repr, DecidableEq
end

deriving instance DecidableEq for Except

def NodeList.toList : NodeList → List Node
  | .nil => []
  | .cons c cs => c :: cs.toList

def NodeList.length : NodeList → Nat
  | .nil => 0
  | .cons _ tl => 1 + tl.length

/-- The `childNodes` of a node; a Text node has none. -/
def Node.childNodes : Node → NodeList
  | .text _ => .nil
  | .elem _ _ cs => cs

/-- The node's `firstChild`: None for a Text node or an Element with no children. -/
def Node.firstChild : Node → Option Node
  | .text _ => none
  | .elem _ _ .nil => none
  | .elem _ _ (.cons c _) => some c

/-- The node's `localName` as a string; minidom gives None for Text nodes,
represented here by the empty string (only ever compared against real tag
names). -/
def Node.tagName : Node → String
  | .text _ => ""
  | .elem ln _ _ => ln

/-- True exactly for Text nodes (`node.nodeType == xml.dom.Node.TEXT_NODE`). -/
def Node.isTextNode : Node → Bool
  | .text _ => true
  | .elem _ _ _ => false

/-- Errors a decode can end in, modelling the distinct Python exception
classes: the descriptive Exception from `_parse`, a dict KeyError, the
AttributeError from accessing `.data` on None or on an Element, the
ValueError from int()/float(), and a propagated fetch or XML-parse
failure. -/
inductive Err where
  | cantParse (xmlForm : String) (known : List String)
  | keyError (key : String)
  | attrError
  | valueError (s : String)
  | fetchError (msg : String)
deriving Repr, DecidableEq

def firstChildData (el : Node) : Except Err String :=
  match el.firstChild with
  | some (.text d) => .ok d
  | _ => .error .attrError

/-- Is this error the descriptive "Can't parse ..." Exception raised by
`_parse` (as opposed to a bare KeyError / AttributeError / ValueError)? -/
def Err.isCantParse : Err → Bool
  | .cantParse _ _ => true
  | _ => false

/-! ## Python dict operations

`_types` is a Python dict from kind name to converter; attribute maps
and decoded record fields are dicts as well.  An association list with
first-match lookup, delete-all-occurrences and replace-or-append update
models a dict whose keys are kept unique by construction.
-/

def dictGet {α : Type} : List (String × α) → String → Option α
  | [], _ => none
  | (k', v) :: rest, k => if k' = k then some v else dictGet rest k

/-- Assignment `d[k] = v`. -/
def dictSet {α : Type} : List (String × α) → String → α → List (String × α)
  | [], k, v => [(k, v)]
  | (k', v') :: rest, k, v => if k' = k then (k, v) :: rest else (k', v') :: dictSet rest k v

/-- Deletion `del d[k]` (the callers below only delete keys they have just looked up). -/
def dictDel {α : Type} : List (String × α) → String → List (String × α)
  | [], _ => []
  | (k', v') :: rest, k => if k' = k then dictDel rest k else (k', v') :: dictDel rest k

/-- The key list `d.keys()`. -/
def keys {α : Type} (d : List (String × α)) : List String := d.map (fun p => p.1)

/-- Attribute lookup: `el.attributes['type'].value` after the membership
test `el.attributes and 'type' in el.attributes.keys()`; a Text node's
`attributes` is None, so lookup on it yields nothing. -/
def Node.attrLookup : Node → String → Option String
  | .text _, _ => none
  | .elem _ attrs _, k => dictGet attrs k

/-! ## Python string and number primitives

The helpers below model the Python library functions the source calls:
`int()`, `float()` (on finite decimal literals), `str.replace`,
`urllib.quote` / `urllib.quote_plus`, and minidom's `toxml()` markup
writer.  They are written over `List Char` so that every evaluation
reduces in the kernel.
-/

/-- The characters stripped by Python's `int()`/`float()` (str.strip). -/
def isPySpace (c : Char) : Bool :=
  c = ' ' || c = '\t' || c = '\n' || c = '\r' || c = '\x0b' || c = '\x0c'

def stripSpaces (cs : List Char) : List Char :=
  ((cs.dropWhile isPySpace).reverse.dropWhile isPySpace).reverse

def digVal (c : Char) : Nat := c.toNat - '0'.toNat

/-- Value of a digit string (callers guarantee all characters are digits). -/
def natOfDigits (cs : List Char) : Nat :=
  cs.foldl (fun acc c => acc * 10 + digVal c) 0

/-- A nonempty all-digit string, or failure. -/
def digitsToNat (cs : List Char) : Option Nat :=
  if cs ≠ [] && cs.all Char.isDigit then some (natOfDigits cs) else none

/-- Python `int(s)` (base 10): strip whitespace, optional sign, digits;
anything else raises ValueError, modelled as `none`. -/
def pyInt (s : String) : Option Int :=
  match stripSpaces s.data with
  | '+' :: cs => (digitsToNat cs).map Int.ofNat
  | '-' :: cs => (digitsToNat cs).map (fun n => -(Int.ofNat n))
  | cs => (digitsToNat cs).map Int.ofNat

/-- Exponent suffix of a float literal: empty, or `e`/`E`, optional sign,
digits. -/
def pyFloatExp (cs : List Char) : Option Int :=
  match cs with
  | [] => some 0
  | e :: rest =>
      if e = 'e' || e = 'E' then
        match rest with
        | '+' :: ds => (digitsToNat ds).map Int.ofNat
        | '-' :: ds => (digitsToNat ds).map (fun n => -(Int.ofNat n))
        | ds => (digitsToNat ds).map Int.ofNat
      else none

/-- The rational `mant / 10 ^ fracDigits * 10 ^ e`, computed with natural
number arithmetic and one normalizing division. -/
def ratOfDecimal (mant : Nat) (fracDigits : Nat) (e : Int) : Rat :=
  if 0 ≤ e then mkRat (Int.ofNat (mant * 10 ^ e.toNat)) (10 ^ fracDigits)
  else mkRat (Int.ofNat mant) (10 ^ fracDigits * 10 ^ (-e).toNat)

/-- Unsigned part of a float literal: `digits [. digits]` or `. digits`,
then an optional exponent. -/
def pyFloatCore (cs : List Char) : Option Rat :=
  let ip := cs.takeWhile Char.isDigit
  let rest := cs.dropWhile Char.isDigit
  match rest with
  | '.' :: rest2 =>
      let fp := rest2.takeWhile Char.isDigit
      let rest3 := rest2.dropWhile Char.isDigit
      if ip = [] && fp = [] then none
      else
        (pyFloatExp rest3).map (fun e =>
          ratOfDecimal (natOfDigits ip * 10 ^ fp.length + natOfDigits fp) fp.length e)
  | _ =>
      if ip = [] then none
      else (pyFloatExp rest).map (fun e => ratOfDecimal (natOfDigits ip) 0 e)

/-- Python `float(s)` on finite decimal literals: strip whitespace,
optional sign, mantissa, optional exponent.  The value is the exact
rational the literal denotes (IEEE rounding is abstracted away); the
special spellings inf/infinity/nan are outside the modelled domain. -/
def pyFloat (s : String) : Option Rat :=
  match stripSpaces s.data with
  | '+' :: cs => pyFloatCore cs
  | '-' :: cs => (pyFloatCore cs).map Neg.neg
  | cs => pyFloatCore cs

/-- Hyphen normalization `ch.localName.replace('-', '_')`. -/
def underscored (s : String) : String :=
  String.mk (s.data.map (fun c => if c = '-' then '_' else c))

/-- urllib's `always_safe` characters: ASCII letters, digits, `_.-`. -/
def isAlwaysSafe (c : Char) : Bool :=
  c.isAlphanum || c = '_' || c = '.' || c = '-'

def hexDigitChar (n : Nat) : Char :=
  if n < 10 then Char.ofNat ('0'.toNat + n) else Char.ofNat ('A'.toNat + (n - 10))

/-- Percent-encoding `'%%%02X' % ord(c)` of one byte (the source handles
Python 2 byte strings; characters are taken mod 256). -/
def pctEncode (c : Char) : List Char :=
  ['%', hexDigitChar (c.toNat % 256 / 16), hexDigitChar (c.toNat % 16)]

/-- The loop of `urllib.quote(s, safe)`: keep always-safe and safe
characters, percent-encode the rest. -/
def pyQuoteChars (safe : List Char) : List Char → List Char
  | [] => []
  | c :: cs =>
      (if isAlwaysSafe c || c ∈ safe then [c] else pctEncode c) ++ pyQuoteChars safe cs

/-- Escaping `urllib.quote_plus(s)`: when the string contains a space, quote with
the space kept safe and then replace each space by `+`; otherwise plain
`quote` with no extra safe characters. -/
def pyQuotePlus (s : String) : String :=
  if ' ' ∈ s.data then
    String.mk ((pyQuoteChars [' '] s.data).map (fun c => if c = ' ' then '+' else c))
  else
    String.mk (pyQuoteChars [] s.data)

/-- Escaping `urllib.quote(s)` with the default safe set `'/'` (used for the
login/token query parameters). -/
def pyQuote (s : String) : String :=
  String.mk (pyQuoteChars ['/'] s.data)

/-- minidom's escaping of character data: `&`, `<`, `>`, `"`. -/
def xmlEscapeChar (c : Char) : List Char :=
  if c = '&' then "&amp;".data
  else if c = '<' then "&lt;".data
  else if c = '>' then "&gt;".data
  else if c = '"' then "&quot;".data
  else [c]

def xmlEscape (s : String) : String :=
  String.mk (s.data.foldr (fun c acc => xmlEscapeChar c ++ acc) [])

def attrsToxml : List (String × String) → String
  | [] => ""
  | (k, v) :: rest => " " ++ k ++ "=\x22" ++ xmlEscape v ++ "\x22" ++ attrsToxml rest

mutual
/-- Serialization `el.toxml()` as minidom writes it, used in the
"Can't parse" error message. -/
def Node.toxml : Node → String
  | .text d => xmlEscape d
  | .elem ln attrs cs =>
      match cs with
      | .nil => "<" ++ ln ++ attrsToxml attrs ++ "/>"
      | _ => "<" ++ ln ++ attrsToxml attrs ++ ">" ++ NodeList.toxmlList cs ++ "</" ++ ln ++ ">"
def NodeList.toxmlList : NodeList → String
  | .nil => ""
  | .cons c cs => c.toxml ++ NodeList.toxmlList cs
end


/-! ## Decoded values, kinds and the type registry

`_types` maps a kind name to its converter.  The converters are the five
scalar lambdas, the decorated function `_parseArray` (registered under
"array"), and the `BaseResponse` subclasses, each registered under its
`parses` attribute.  A converter is represented by its `Shape`; the
record classes differ only in the kind identity they stamp on the
result (they all decode through `BaseResponse.__init__`), captured by
`RecordKind`.
-/

inductive RecordKind where
  | user | plan | repository | publicKey | commit | parent | author | committer | issue
deriving Repr, DecidableEq

inductive Shape where
  | string | integer | float | datetime | boolean | array | record (k : RecordKind)
deriving Repr, DecidableEq

/-- Is this one of the five scalar converters from the `_types` literal? -/
def Shape.isScalar : Shape → Bool
  | .array => false
  | .record _ => false
  | _ => true

inductive Value where
  | str (s : String)
  | int (n : Int)
  | flt (q : Rat)
  | bool (b : Bool)
  | arr (vs : List Value)
  | record (k : RecordKind) (fields : List (String × Value))
deriving Repr

abbrev Registry := List (String × Shape)

/-- The `_types` dict after the module-level registration loop: the five
scalar converters from the dict literal, `_parseArray` under "array",
and every `BaseResponse` subclass under its `parses` name. -/
def stdTypes : Registry :=
  [("string", .string), ("integer", .integer), ("float", .float),
   ("datetime", .datetime), ("boolean", .boolean), ("array", .array),
   ("user", .record .user), ("plan", .record .plan), ("repository", .record .repository),
   ("public-key", .record .publicKey), ("commit", .record .commit),
   ("parent", .record .parent), ("author", .record .author),
   ("committer", .record .committer), ("issue", .record .issue)]

/-! ## The generic decoder `_parse`

`_parse(el)` determines the element's kind name, then dispatches to
`_types[type](el)`.  The kind determination mirrors the source's
control flow exactly: the `type` variable starts as the string
`'string'`; an explicit type attribute overrides it; otherwise a
registered tag name; otherwise, for a container (more than one child),
it is reset to None and the children are scanned for a nonempty
`<type>` text; `if not type` (None or empty) raises the descriptive
Exception; finally `_types[type]` raises a bare KeyError when the
determined kind is absent.
-/

/-- The container scan: `while ch and not type: if ch.localName == 'type':
type = ch.firstChild.data`.  An empty data string is falsy, so the scan
continues past it; a `<type>` child without a text first child raises
AttributeError. -/
def scanType : NodeList → Except Err (Option String)
  | .nil => .ok none
  | .cons ch rest =>
      match ch with
      | .elem "type" _ _ => do
          let d ← firstChildData ch
          if d = "" then scanType rest else .ok (some d)
      | _ => scanType rest

/-- The value of the `type` variable after the if/elif chain in `_parse`
(`none` models Python's None, reachable only through the container
scan). -/
def determineType (reg : Registry) (el : Node) : Except Err (Option String) :=
  match el.attrLookup "type" with
  | some v => .ok (some v)
  | none =>
    match el with
    | .text _ => .ok (some "string")
    | .elem ln _ cs =>
        if (dictGet reg ln).isSome then .ok (some ln)
        else if cs.length > 1 then scanType cs
        else .ok (some "string")

/-- Kind determination, the `if not type: raise` guard, and the
`_types[type]` registry lookup, fused as in the source. -/
def resolveShape (reg : Registry) (el : Node) : Except Err Shape := do
  let t? ← determineType reg el
  match t? with
  | none => .error (.cantParse el.toxml (keys reg))
  | some t =>
      if t = "" then .error (.cantParse el.toxml (keys reg))
      else
        match dictGet reg t with
        | none => .error (.keyError t)
        | some sh => .ok sh

/-- The filter both child loops apply:
`ch.nodeType != xml.dom.Node.TEXT_NODE and ch.firstChild`. -/
def hasContent (c : Node) : Bool :=
  c.isTextNode = false && c.firstChild.isSome

/-- The five scalar converters from the `_types` dict literal.  The
`array` and `record` arms are never taken: `parse` handles those two
shapes before falling through to this function. -/
def applyScalar (sh : Shape) (el : Node) : Except Err Value :=
  match sh with
  | .string => do let d ← firstChildData el; .ok (.str d)
  | .integer => do
      let d ← firstChildData el
      match pyInt d with
      | some n => .ok (.int n)
      | none => .error (.valueError d)
  | .float => do
      let d ← firstChildData el
      match pyFloat d with
      | some q => .ok (.flt q)
      | none => .error (.valueError d)
  | .datetime => do let d ← firstChildData el; .ok (.str d)
  | .boolean => do let d ← firstChildData el; .ok (.bool (d == "true"))
  | .array => .error .attrError
  | .record _ => .error .attrError

mutual
/-- The generic parser `_parse(el)`.  For a Text node the array and record converters see no
children (`firstChild` is None), so their loops produce an empty list /
no fields; that is inlined here to keep the recursion structural. -/
def parse (reg : Registry) : Node → Except Err Value
  | .text d => do
      let sh ← resolveShape reg (.text d)
      match sh with
      | .array => .ok (.arr [])
      | .record k => .ok (.record k [])
      | _ => applyScalar sh (.text d)
  | .elem ln attrs cs => do
      let sh ← resolveShape reg (.elem ln attrs cs)
      match sh with
      | .array => do
          let vs ← parseItems reg cs
          .ok (.arr vs)
      | .record k => do
          let fs ← parseFields reg cs []
          .ok (.record k fs)
      | _ => applyScalar sh (.elem ln attrs cs)

/-- The loop of `_parseArray`: append `_parse(ch)` for every child that is
not a text node and has a first child. -/
def parseItems (reg : Registry) : NodeList → Except Err (List Value)
  | .nil => .ok []
  | .cons c rest =>
      if hasContent c then do
        let v ← parse reg c
        let vs ← parseItems reg rest
        .ok (v :: vs)
      else
        parseItems reg rest

/-- The loop of `BaseResponse.__init__`: for every child that is not a
text node and has a first child, assign `_parse(ch)` to the field named
by the child's tag with hyphens replaced by underscores (`self.__dict__`
is a dict, so a repeated field name overwrites). -/
def parseFields (reg : Registry) :
    NodeList → List (String × Value) → Except Err (List (String × Value))
  | .nil, acc => .ok acc
  | .cons c rest, acc =>
      if hasContent c then do
        let v ← parse reg c
        parseFields reg rest (dictSet acc (underscored c.tagName) v)
      else
        parseFields reg rest acc
end

/-- The converter `_types[type]` as applied to an element: `_parseArray`
for "array", `BaseResponse.__init__` for a record class, else a scalar
lambda. -/
def applyShape (reg : Registry) (sh : Shape) (el : Node) : Except Err Value :=
  match sh with
  | .array => do
      let vs ← parseItems reg el.childNodes
      .ok (.arr vs)
  | .record k => do
      let fs ← parseFields reg el.childNodes []
      .ok (.record k fs)
  | _ => applyScalar sh el

/-! ## Endpoint accessors

`BaseEndpoint._fetch` builds the request URL and parses the response
body with minidom; `_parsed` then runs `_parse` on the document root.
The network fetch plus XML parse is modelled as a function from the
resource path to the root element (or a propagated fetch/parse error);
the registry is passed explicitly where the source reads the global
`_types`.
-/

/-- The helper `_parsed(path)`: fetch the document and decode its root element. -/
def parsed (reg : Registry) (fetch : String → Except Err Node) (path : String) :
    Except Err Value := do
  let root ← fetch path
  parse reg root

/-- The `UserEndpoint.search` resource path: `'user/search/' + query`
(note: no URL escaping is applied to the query). -/
def userSearchPath (query : String) : String := "user/search/" ++ query

/-- The `RepositoryEndpoint.search` resource path:
`'repos/search/' + urllib.quote_plus(term)`. -/
def repoSearchPath (term : String) : String := "repos/search/" ++ pyQuotePlus term

def userSearch (reg : Registry) (fetch : String → Except Err Node) (query : String) :
    Except Err Value :=
  parsed reg fetch (userSearchPath query)

def repoSearch (reg : Registry) (fetch : String → Except Err Node) (term : String) :
    Except Err Value :=
  parsed reg fetch (repoSearchPath term)

/-- The `RepositoryEndpoint.branches` resource path. -/
def branchesPath (user repo : String) : String :=
  "repos/show/" ++ user ++ "/" ++ repo ++ "/branches"

/-- The loop of `RepositoryEndpoint.branches`: for every non-text child of
the document root, `rv[c.localName] = str(c.firstChild.data)`.  It never
consults `_types` or `_parse`. -/
def branchesFold : NodeList → List (String × String) → Except Err (List (String × String))
  | .nil, rv => .ok rv
  | .cons c rest, rv =>
      match c with
      | .text _ => branchesFold rest rv
      | .elem ln _ _ => do
          let d ← firstChildData c
          branchesFold rest (dictSet rv ln d)

def branches (fetch : String → Except Err Node) (user repo : String) :
    Except Err (List (String × String)) := do
  let root ← fetch (branchesPath user repo)
  branchesFold root.childNodes []

/-- The `IssuesEndpoint.list` resource path. -/
def issuesPath (user repo state : String) : String :=
  "issues/list/" ++ user ++ "/" ++ repo ++ "/" ++ state

/-- The operation `IssuesEndpoint.list`: look up and delete `_types['user']` (a bare
KeyError if absent, leaving the registry untouched), decode with the
shrunken registry, and restore the binding in a `finally` block — the
restore happens whether the decode returns or raises.  The pair holds
the call's outcome and the final state of the registry. -/
def issuesList (reg : Registry) (fetch : String → Except Err Node)
    (user repo state : String) : Except Err Value × Registry :=
  match dictGet reg "user" with
  | none => (.error (.keyError "user"), reg)
  | some olduser =>
      let shrunk := dictDel reg "user"
      (parsed shrunk fetch (issuesPath user repo state), dictSet shrunk "user" olduser)


/-- The raw text `str(c.firstChild.data)` that `branches` stores, as a
total function (callers establish that the data exists). -/
def rawText (c : Node) : String :=
  match firstChildData c with
  | .ok d => d
  | .error _ => ""

/-- Effectful map over a list in the `Except` monad, failing on the first
error: the specification-side combinator used to state what the child
loops of `_parseArray` and `BaseResponse.__init__` compute. -/
def exceptMapM {ε α β : Type} (f : α → Except ε β) : List α → Except ε (List β)
  | [] => .ok []
  | a :: l => do
      let b ← f a
      let bs ← exceptMapM f l
      .ok (b :: bs)

/-! ## Basic lemmas on the embedded monad and dict operations -/

@[simp] theorem exceptPure_eq {ε α : Type} (a : α) : (pure a : Except ε α) = .ok a := rfl

@[simp] theorem exceptBind_ok {ε α β : Type} (a : α) (f : α → Except ε β) :
    (Except.ok a >>= f) = f a := rfl

@[simp] theorem exceptBind_error {ε α β : Type} (e : ε) (f : α → Except ε β) :
    ((Except.error e : Except ε α) >>= f) = .error e := rfl

@[simp] theorem exceptMap_ok {ε α β : Type} (f : α → β) (a : α) :
    Except.map f (Except.ok a : Except ε α) = .ok (f a) := rfl

@[simp] theorem exceptMap_error {ε α β : Type} (f : α → β) (e : ε) :
    Except.map f (Except.error e : Except ε α) = .error e := rfl

theorem mem_keys_of_dictGet_some {α : Type} {d : List (String × α)} {k : String} {v : α}
    (h : dictGet d k = some v) : k ∈ keys d := by
  induction d with
  | nil => simp [dictGet] at h
  | cons p rest ih =>
      obtain ⟨k', v'⟩ := p
      by_cases hk : k' = k
      · subst hk; simp [keys]
      · simp only [dictGet, if_neg hk] at h
        simp only [keys, List.map_cons, List.mem_cons]
        exact Or.inr (ih h)

theorem dictDel_eq_filter {α : Type} (d : List (String × α)) (u : String) :
    dictDel d u = d.filter (fun p => p.1 ≠ u) := by
  induction d with
  | nil => rfl
  | cons p rest ih =>
      obtain ⟨k', v'⟩ := p
      by_cases hk : k' = u <;> simp [dictDel, hk, ih, List.filter_cons]

theorem mem_keys_dictDel {α : Type} (d : List (String × α)) (u k : String) :
    k ∈ keys (dictDel d u) ↔ k ∈ keys d ∧ k ≠ u := by
  simp only [keys, dictDel_eq_filter, List.mem_map, List.mem_filter]
  constructor
  · rintro ⟨p, ⟨hp, hne⟩, rfl⟩
    simp only [decide_not, Bool.not_eq_eq_eq_not, Bool.not_true, decide_eq_false_iff_not] at hne
    exact ⟨⟨p, hp, rfl⟩, hne⟩
  · rintro ⟨⟨p, hp, rfl⟩, hne⟩
    refine ⟨p, ⟨hp, ?_⟩, rfl⟩
    simpa using hne

theorem mem_keys_dictSet {α : Type} (d : List (String × α)) (u k : String) (v : α) :
    k ∈ keys (dictSet d u v) ↔ k ∈ keys d ∨ k = u := by
  induction d with
  | nil => simp [dictSet, keys, eq_comm]
  | cons p rest ih =>
      obtain ⟨k', v'⟩ := p
      by_cases hk : k' = u
      · subst hk
        simp [dictSet, keys]
        tauto
      · simp only [dictSet, if_neg hk, keys, List.map_cons, List.mem_cons] at ih ⊢
        tauto

theorem dictGet_dictDel_self {α : Type} (d : List (String × α)) (k : String) :
    dictGet (dictDel d k) k = none := by
  induction d with
  | nil => rfl
  | cons p rest ih =>
      obtain ⟨k', v'⟩ := p
      by_cases hk : k' = k
      · simp [dictDel, if_pos hk, ih]
      · simp [dictDel, dictGet, if_neg hk, ih]

theorem dictSet_eq_append {α : Type} (d : List (String × α)) (k : String) (v : α)
    (h : k ∉ d.map Prod.fst) : dictSet d k v = d ++ [(k, v)] := by
  induction d with
  | nil => rfl
  | cons p rest ih =>
      obtain ⟨k', v'⟩ := p
      simp only [List.map_cons, List.mem_cons] at h
      push_neg at h
      simp [dictSet, if_neg (Ne.symm h.1), ih h.2]

/-! ## Claim theorems -/

/-- Claim C4, counterexample.  The claim says an element with no type
attribute, an unregistered tag name and at most one child fails with the
descriptive "cannot determine kind" error.  On the code the `type`
variable keeps its initial value `'string'` in that situation, so
`<foo>hello</foo>` (tag "foo" unregistered) decodes successfully as the
string "hello" instead of raising. -/
theorem untyped_unregistered_fallback_cex :
    parse stdTypes (.elem "foo" [] (.cons (.text "hello") .nil)) = .ok (.str "hello")
    ∧ dictGet stdTypes "foo" = none := ⟨rfl, by decide⟩

/-- Claim C4, amended: an element with no type attribute, an unregistered
tag name and at most one child is decoded under the initial default kind
"string": it yields the data of its first child when that is a text
node, and otherwise (no child, or an element first child) raises the
low-level AttributeError — never the descriptive "cannot determine
kind" Exception. -/
theorem untyped_unregistered_string_fallback (reg : Registry) (tag : String)
    (attrs : List (String × String)) (cs : NodeList)
    (hattr : dictGet attrs "type" = none)
    (hln : dictGet reg tag = none)
    (hlen : cs.length ≤ 1)
    (hstr : dictGet reg "string" = some .string) :
    parse reg (.elem tag attrs cs)
      = Except.map Value.str (firstChildData (.elem tag attrs cs)) := by
  have hnotgt : ¬ (cs.length > 1) := by omega
  cases hfc : firstChildData (.elem tag attrs cs) <;>
    simp [parse, resolveShape, determineType, Node.attrLookup, hattr, hln, hnotgt, hstr,
      applyScalar, hfc]

/-- Claim C4, witness: the amended statement applied to the concrete
element `<foo>hello</foo>` against the full registry. -/
theorem untyped_unregistered_string_fallback_witness :
    parse stdTypes (.elem "foo" [] (.cons (.text "hello") .nil))
      = Except.map Value.str (firstChildData (.elem "foo" [] (.cons (.text "hello") .nil)))
    ∧ Except.map Value.str (firstChildData (.elem "foo" [] (.cons (.text "hello") .nil)))
      = .ok (.str "hello") :=
  ⟨untyped_unregistered_string_fallback stdTypes "foo" [] (.cons (.text "hello") .nil)
      rfl (by decide) (by decide) (by decide), rfl⟩

/-- Claim C5, counterexample.  The claim says a determined-but-unregistered
kind fails with the single decoding-failure error carrying the element's
serialized form and the known kinds.  On the code `_types[type]` raises a
bare KeyError that carries only the kind name: for
`<x type="bogus">t</x>` the decode fails with KeyError("bogus"), not
with the descriptive "Can't parse" Exception. -/
theorem determined_unregistered_keyerror_cex :
    parse stdTypes (.elem "x" [("type", "bogus")] (.cons (.text "t") .nil))
      = .error (.keyError "bogus")
    ∧ Err.isCantParse (.keyError "bogus") = false := ⟨rfl, rfl⟩

/-- Claim C5, amended: when the element's kind is determined (nonempty) but
absent from the registry, decoding fails with the bare KeyError naming
only the missing kind; the descriptive error that carries the element's
serialized form and the known kinds is raised only when no kind can be
determined at all. -/
theorem determined_unregistered_keyerror (reg : Registry) (el : Node) (t : String)
    (hdet : determineType reg el = .ok (some t))
    (hne : t ≠ "")
    (hlk : dictGet reg t = none) :
    parse reg el = .error (.keyError t) := by
  cases el <;> simp [parse, resolveShape, hdet, hne, hlk]

/-- Claim C5, witness: the amended statement at `<x type="bogus">t</x>`. -/
theorem determined_unregistered_keyerror_witness :
    parse stdTypes (.elem "x" [("type", "bogus")] (.cons (.text "t") .nil))
      = .error (.keyError "bogus") :=
  determined_unregistered_keyerror stdTypes
    (.elem "x" [("type", "bogus")] (.cons (.text "t") .nil)) "bogus"
    rfl (by decide) (by decide)

/-- Claim C2: an element with an explicit type attribute naming a
registered scalar kind and a text first child decodes to the
correspondingly typed primitive: "string" and "datetime" pass the text
through unchanged, "boolean" is true exactly when the text is the
literal "true", and "integer"/"float" apply the numeric conversion
(whose Python-faithful failure on unparsable text is also recorded). -/
theorem scalar_type_attr_decode (tag s : String) (attrs : List (String × String))
    (rest : NodeList) :
    (dictGet attrs "type" = some "string" →
      parse stdTypes (.elem tag attrs (.cons (.text s) rest)) = .ok (.str s))
    ∧ (dictGet attrs "type" = some "datetime" →
      parse stdTypes (.elem tag attrs (.cons (.text s) rest)) = .ok (.str s))
    ∧ (dictGet attrs "type" = some "boolean" →
      parse stdTypes (.elem tag attrs (.cons (.text s) rest)) = .ok (.bool (s == "true")))
    ∧ (dictGet attrs "type" = some "integer" →
      parse stdTypes (.elem tag attrs (.cons (.text s) rest))
        = (match pyInt s with
           | some n => .ok (.int n)
           | none => .error (.valueError s)))
    ∧ (dictGet attrs "type" = some "float" →
      parse stdTypes (.elem tag attrs (.cons (.text s) rest))
        = (match pyFloat s with
           | some q => .ok (.flt q)
           | none => .error (.valueError s))) := by
  refine ⟨fun h => ?_, fun h => ?_, fun h => ?_, fun h => ?_, fun h => ?_⟩ <;>
    simp [parse, resolveShape, determineType, Node.attrLookup, h, stdTypes, dictGet,
      applyScalar, firstChildData, Node.firstChild]

/-- Claim C2, witness: concrete scalar decodes through the theorem for all
five kinds, including a non-"true" boolean text and an exact float. -/
theorem scalar_type_attr_decode_witness :
    parse stdTypes (.elem "x" [("type", "string")] (.cons (.text "hi") .nil)) = .ok (.str "hi")
    ∧ parse stdTypes (.elem "x" [("type", "datetime")] (.cons (.text "2008/01/01") .nil))
        = .ok (.str "2008/01/01")
    ∧ parse stdTypes (.elem "x" [("type", "boolean")] (.cons (.text "true") .nil))
        = .ok (.bool true)
    ∧ parse stdTypes (.elem "x" [("type", "boolean")] (.cons (.text "yes") .nil))
        = .ok (.bool false)
    ∧ parse stdTypes (.elem "x" [("type", "integer")] (.cons (.text "42") .nil))
        = .ok (.int 42)
    ∧ parse stdTypes (.elem "x" [("type", "float")] (.cons (.text "1.5") .nil))
        = .ok (.flt (mkRat 3 2)) :=
  ⟨(scalar_type_attr_decode "x" "hi" _ _).1 rfl,
   (scalar_type_attr_decode "x" "2008/01/01" _ _).2.1 rfl,
   (scalar_type_attr_decode "x" "true" _ _).2.2.1 rfl,
   (scalar_type_attr_decode "x" "yes" _ _).2.2.1 rfl,
   (scalar_type_attr_decode "x" "42" _ _).2.2.2.1 rfl,
   (scalar_type_attr_decode "x" "1.5" _ _).2.2.2.2 rfl⟩

/-- Claim C1: with the "user" kind registered beforehand,
`IssuesEndpoint.list` leaves the set of registered kinds identical to
what it was before the call — the lookup/del/finally-restore sequence —
whether the fetch-and-decode succeeds or fails, and the decode itself
runs against the registry with "user" removed. -/
theorem issuesList_registry_restored (reg : Registry) (fetch : String → Except Err Node)
    (u r s : String) (sh : Shape) (h : dictGet reg "user" = some sh) :
    (∀ k, k ∈ keys (issuesList reg fetch u r s).2 ↔ k ∈ keys reg)
    ∧ dictGet (dictDel reg "user") "user" = none
    ∧ (issuesList reg fetch u r s).1 = parsed (dictDel reg "user") fetch (issuesPath u r s) := by
  have huser : "user" ∈ keys reg := mem_keys_of_dictGet_some h
  refine ⟨fun k => ?_, dictGet_dictDel_self reg "user", ?_⟩
  · simp only [issuesList, h]
    rw [mem_keys_dictSet, mem_keys_dictDel]
    constructor
    · rintro (⟨hm, _⟩ | rfl)
      · exact hm
      · exact huser
    · intro hm
      by_cases hku : k = "user"
      · exact Or.inr hku
      · exact Or.inl ⟨hm, hku⟩
  · simp only [issuesList, h]

/-- Claim C1, witness: a failing fetch against the full registry; the
registry's key set is unchanged by the call. -/
theorem issuesList_registry_restored_witness :
    dictGet stdTypes "user" = some (.record .user)
    ∧ ("user" ∈ keys (issuesList stdTypes (fun _ => .error (.fetchError "down"))
          "dustin" "py-github" "open").2
        ↔ "user" ∈ keys stdTypes)
    ∧ (issuesList stdTypes (fun _ => .error (.fetchError "down"))
          "dustin" "py-github" "open").1 = .error (.fetchError "down") :=
  ⟨by decide,
   (issuesList_registry_restored stdTypes (fun _ => .error (.fetchError "down"))
      "dustin" "py-github" "open" (.record .user) (by decide)).1 "user",
   rfl⟩

/-- Claim C10: an element whose resolved kind is scalar but which has no
child at all makes every scalar converter fail with the AttributeError
from `None.data` rather than return a value; stated both for the
converters themselves and through `_parse` for an empty element whose
type attribute names a registered scalar kind. -/
theorem scalar_empty_element_error (reg : Registry) (sh : Shape) (el : Node)
    (tag k : String) (attrs : List (String × String))
    (hs : sh.isScalar = true) (hfc : el.firstChild = none)
    (hattr : dictGet attrs "type" = some k) (hk : k ≠ "")
    (hlk : dictGet reg k = some sh) :
    applyScalar sh el = .error .attrError
    ∧ parse reg (.elem tag attrs .nil) = .error .attrError := by
  have hsc : applyScalar sh el = .error .attrError := by
    cases sh <;> simp_all [applyScalar, firstChildData, Shape.isScalar]
  refine ⟨hsc, ?_⟩
  have hfc' : (Node.elem tag attrs .nil).firstChild = none := rfl
  cases sh <;>
    simp_all [parse, resolveShape, determineType, Node.attrLookup, applyScalar,
      firstChildData, Shape.isScalar]

/-- Claim C10, witness: `<x type="integer"/>` fails with AttributeError. -/
theorem scalar_empty_element_error_witness :
    applyScalar .integer (.elem "x" [("type", "integer")] .nil) = .error .attrError
    ∧ parse stdTypes (.elem "x" [("type", "integer")] .nil) = .error .attrError :=
  scalar_empty_element_error stdTypes .integer (.elem "x" [("type", "integer")] .nil)
    "x" "integer" [("type", "integer")] rfl rfl rfl (by decide) (by decide)

/-- Claim C9: "parent", "author" and "committer" are registered under their
own kind names, distinct from "commit" and "user", and an element with
any of these five tag names (and no type attribute) decodes to a record
with exactly the same fields — all five run the same
`BaseResponse.__init__` over the same children — differing only in the
kind identity stamped on the result. -/
theorem variant_kinds_same_fields (attrs : List (String × String)) (cs : NodeList)
    (hattr : dictGet attrs "type" = none) :
    dictGet stdTypes "parent" = some (.record .parent)
    ∧ dictGet stdTypes "author" = some (.record .author)
    ∧ dictGet stdTypes "committer" = some (.record .committer)
    ∧ (RecordKind.parent ≠ RecordKind.commit ∧ RecordKind.author ≠ RecordKind.user
        ∧ RecordKind.committer ≠ RecordKind.user)
    ∧ parse stdTypes (.elem "parent" attrs cs)
        = Except.map (Value.record .parent) (parseFields stdTypes cs [])
    ∧ parse stdTypes (.elem "commit" attrs cs)
        = Except.map (Value.record .commit) (parseFields stdTypes cs [])
    ∧ parse stdTypes (.elem "author" attrs cs)
        = Except.map (Value.record .author) (parseFields stdTypes cs [])
    ∧ parse stdTypes (.elem "committer" attrs cs)
        = Except.map (Value.record .committer) (parseFields stdTypes cs [])
    ∧ parse stdTypes (.elem "user" attrs cs)
        = Except.map (Value.record .user) (parseFields stdTypes cs []) := by
  have hp : dictGet stdTypes "parent" = some (.record .parent) := by decide
  have hc : dictGet stdTypes "commit" = some (.record .commit) := by decide
  have ha : dictGet stdTypes "author" = some (.record .author) := by decide
  have hco : dictGet stdTypes "committer" = some (.record .committer) := by decide
  have hu : dictGet stdTypes "user" = some (.record .user) := by decide
  refine ⟨by decide, by decide, by decide, by decide, ?_, ?_, ?_, ?_, ?_⟩ <;>
    (cases hpf : parseFields stdTypes cs [] <;>
      simp [parse, resolveShape, determineType, Node.attrLookup, hattr,
        hp, hc, ha, hco, hu, hpf])

/-- Claim C9, witness: the same single-field content decoded under
"parent" and under "commit" yields identical fields with different kind
identities. -/
theorem variant_kinds_same_fields_witness :
    parse stdTypes (.elem "parent"  []
        (.cons (.elem "id" [("type", "string")] (.cons (.text "abc") .nil)) .nil))
      = .ok (.record .parent [("id", .str "abc")])
    ∧ parse stdTypes (.elem "commit" []
        (.cons (.elem "id" [("type", "string")] (.cons (.text "abc") .nil)) .nil))
      = .ok (.record .commit [("id", .str "abc")]) :=
  ⟨((variant_kinds_same_fields []
      (.cons (.elem "id" [("type", "string")] (.cons (.text "abc") .nil)) .nil)
      rfl).2.2.2.2.1).trans rfl,
   ((variant_kinds_same_fields []
      (.cons (.elem "id" [("type", "string")] (.cons (.text "abc") .nil)) .nil)
      rfl).2.2.2.2.2.1).trans rfl⟩

theorem exceptMapM_ok_length {ε α β : Type} (f : α → Except ε β) :
    ∀ (l : List α) (bs : List β), exceptMapM f l = .ok bs → bs.length = l.length := by
  intro l
  induction l with
  | nil =>
      intro bs h
      simp only [exceptMapM, Except.ok.injEq] at h
      simp [← h]
  | cons a t ih =>
      intro bs h
      simp only [exceptMapM] at h
      cases hfa : f a with
      | error e => rw [hfa] at h; simp at h
      | ok b =>
          rw [hfa] at h
          simp only [exceptBind_ok] at h
          cases hmt : exceptMapM f t with
          | error e => rw [hmt] at h; simp at h
          | ok bs' =>
              rw [hmt] at h
              simp only [exceptBind_ok, Except.ok.injEq] at h
              subst h
              simp [ih bs' hmt]

theorem parseItems_eq_mapM (reg : Registry) : (cs : NodeList) →
    parseItems reg cs = exceptMapM (parse reg) (cs.toList.filter hasContent)
  | .nil => by simp [parseItems, NodeList.toList, exceptMapM]
  | .cons c rest => by
      by_cases hc : hasContent c
      · simp [parseItems, NodeList.toList, List.filter_cons, hc, exceptMapM,
          parseItems_eq_mapM reg rest]
      · simp [parseItems, NodeList.toList, List.filter_cons, hc,
          parseItems_eq_mapM reg rest]

/-- Claim C3: an element decoded under the "array" kind yields exactly the
recursive decodings of its contentful children (non-text children with a
first child), in document order — text children and childless children
are skipped and contribute no entry — and a successful decode has
exactly as many entries as there are contentful children. -/
theorem array_decode_in_order (reg : Registry) (tag : String)
    (attrs : List (String × String)) (cs : NodeList)
    (hattr : dictGet attrs "type" = some "array")
    (hreg : dictGet reg "array" = some .array) :
    parse reg (.elem tag attrs cs)
      = Except.map Value.arr (exceptMapM (parse reg) (cs.toList.filter hasContent))
    ∧ ∀ vs, parse reg (.elem tag attrs cs) = .ok (.arr vs) →
        vs.length = (cs.toList.filter hasContent).length := by
  have hstep : parse reg (.elem tag attrs cs)
      = (parseItems reg cs) >>= fun vs => .ok (.arr vs) := by
    simp [parse, resolveShape, determineType, Node.attrLookup, hattr, hreg]
  have heq : parse reg (.elem tag attrs cs)
      = Except.map Value.arr (exceptMapM (parse reg) (cs.toList.filter hasContent)) := by
    rw [hstep, parseItems_eq_mapM]
    cases hm : exceptMapM (parse reg) (cs.toList.filter hasContent) <;> simp [hm]
  refine ⟨heq, fun vs hvs => ?_⟩
  rw [heq] at hvs
  cases hm : exceptMapM (parse reg) (cs.toList.filter hasContent) with
  | error e => rw [hm] at hvs; simp at hvs
  | ok ws =>
      rw [hm] at hvs
      simp only [exceptMap_ok, Except.ok.injEq, Value.arr.injEq] at hvs
      subst hvs
      exact exceptMapM_ok_length (parse reg) _ _ hm

/-- Claim C3, witness: two contentful children (one behind a text node and
an empty element, both skipped) decode to a two-entry sequence in
document order. -/
theorem array_decode_in_order_witness :
    parse stdTypes (.elem "data" [("type", "array")]
        (.cons (.elem "a" [("type", "integer")] (.cons (.text "1") .nil))
          (.cons (.text "junk")
            (.cons (.elem "b" [("type", "string")] (.cons (.text "s") .nil))
              (.cons (.elem "empty" [] .nil) .nil)))))
      = .ok (.arr [.int 1, .str "s"])
    ∧ ([Value.int 1, Value.str "s"].length = 2) :=
  ⟨((array_decode_in_order stdTypes "data" [("type", "array")]
      (.cons (.elem "a" [("type", "integer")] (.cons (.text "1") .nil))
        (.cons (.text "junk")
          (.cons (.elem "b" [("type", "string")] (.cons (.text "s") .nil))
            (.cons (.elem "empty" [] .nil) .nil))))
      rfl (by decide)).1).trans rfl,
   rfl⟩

theorem parseFields_eq_mapM (reg : Registry) : (cs : NodeList) →
    ∀ (acc : List (String × Value)),
    ((cs.toList.filter hasContent).map (fun c => underscored c.tagName)).Nodup →
    (∀ c ∈ cs.toList.filter hasContent, underscored c.tagName ∉ acc.map Prod.fst) →
    parseFields reg cs acc
      = Except.map (fun fs => acc ++ fs)
          (exceptMapM (fun c => Except.map (fun v => (underscored c.tagName, v)) (parse reg c))
            (cs.toList.filter hasContent))
  | .nil => by intro acc _ _; simp [parseFields, NodeList.toList, exceptMapM]
  | .cons c rest => by
      intro acc hnd hfresh
      by_cases hc : hasContent c
      · have htl : (NodeList.cons c rest).toList.filter hasContent
            = c :: rest.toList.filter hasContent := by
          simp [NodeList.toList, List.filter_cons, hc]
        simp only [htl] at hnd hfresh ⊢
        simp only [List.map_cons, List.nodup_cons] at hnd
        obtain ⟨hn1, hn2⟩ := hnd
        have hnm : underscored c.tagName ∉ acc.map Prod.fst := hfresh c (by simp)
        have hbody : parseFields reg (.cons c rest) acc
            = parse reg c >>= fun v =>
                parseFields reg rest (dictSet acc (underscored c.tagName) v) := by
          simp [parseFields, hc]
        rw [hbody]
        cases hp : parse reg c with
        | error e => simp [exceptMapM, hp]
        | ok v =>
            simp only [exceptBind_ok]
            rw [dictSet_eq_append acc _ v hnm]
            have hfresh' : ∀ c' ∈ rest.toList.filter hasContent,
                underscored c'.tagName
                  ∉ ((acc ++ [(underscored c.tagName, v)]).map Prod.fst) := by
              intro c' hc'
              have h1 : underscored c'.tagName ∉ acc.map Prod.fst :=
                hfresh c' (List.mem_cons_of_mem _ hc')
              have h2 : underscored c'.tagName ≠ underscored c.tagName := by
                intro he
                exact hn1 (he ▸ List.mem_map_of_mem _ hc')
              simp [List.map_append, h1, h2]
            rw [parseFields_eq_mapM reg rest (acc ++ [(underscored c.tagName, v)]) hn2 hfresh']
            simp only [exceptMapM, hp, exceptMap_ok, exceptBind_ok]
            cases hmt : exceptMapM
                (fun c => Except.map (fun v => (underscored c.tagName, v)) (parse reg c))
                (rest.toList.filter hasContent) <;>
              simp [hmt]
      · have htl : (NodeList.cons c rest).toList.filter hasContent
            = rest.toList.filter hasContent := by
          simp [NodeList.toList, List.filter_cons, hc]
        simp only [htl] at hnd hfresh ⊢
        have hbody : parseFields reg (.cons c rest) acc = parseFields reg rest acc := by
          simp [parseFields, hc]
        rw [hbody]
        exact parseFields_eq_mapM reg rest acc hnd hfresh

/-- Claim C6: an element decoded as a record gets one field per contentful
child (non-text, with a first child), named by the child's tag with
every hyphen replaced by an underscore and holding the child's recursive
decoding; text children and empty children contribute no field. -/
theorem record_decode_fields (reg : Registry) (k : RecordKind) (tag : String)
    (attrs : List (String × String)) (cs : NodeList)
    (hattr : dictGet attrs "type" = none)
    (htag : tag ≠ "")
    (hreg : dictGet reg tag = some (.record k))
    (hnd : ((cs.toList.filter hasContent).map (fun c => underscored c.tagName)).Nodup) :
    parse reg (.elem tag attrs cs)
      = Except.map (Value.record k)
          (exceptMapM (fun c => Except.map (fun v => (underscored c.tagName, v)) (parse reg c))
            (cs.toList.filter hasContent)) := by
  have hstep : parse reg (.elem tag attrs cs)
      = (parseFields reg cs []) >>= fun fs => .ok (.record k fs) := by
    simp [parse, resolveShape, determineType, Node.attrLookup, hattr, htag, hreg]
  rw [hstep, parseFields_eq_mapM reg cs [] hnd (by simp)]
  cases hm : exceptMapM
      (fun c => Except.map (fun v => (underscored c.tagName, v)) (parse reg c))
      (cs.toList.filter hasContent) <;>
    simp [hm]

/-- Claim C6, witness: `<user><public-key type="string">k</public-key>
<junk/>text</user>` decodes to a record with the single field
`public_key`; the hyphen is replaced by an underscore and the empty and
text children produce no field. -/
theorem record_decode_fields_witness :
    parse stdTypes (.elem "user" []
        (.cons (.elem "public-key" [("type", "string")] (.cons (.text "k") .nil))
          (.cons (.elem "junk" [] .nil) (.cons (.text "text") .nil))))
      = .ok (.record .user [("public_key", .str "k")])
    ∧ underscored "public-key" = "public_key" :=
  ⟨((record_decode_fields stdTypes .user "user" []
      (.cons (.elem "public-key" [("type", "string")] (.cons (.text "k") .nil))
        (.cons (.elem "junk" [] .nil) (.cons (.text "text") .nil)))
      rfl (by decide) (by decide) (by decide))).trans rfl,
   rfl⟩

theorem branchesFold_eq : (cs : NodeList) → ∀ (acc : List (String × String)),
    ((cs.toList.filter (fun c => !c.isTextNode)).map Node.tagName).Nodup →
    (∀ c ∈ cs.toList.filter (fun c => !c.isTextNode), Node.tagName c ∉ acc.map Prod.fst) →
    (∀ c ∈ cs.toList.filter (fun c => !c.isTextNode), ∃ d, firstChildData c = .ok d) →
    branchesFold cs acc
      = .ok (acc ++ (cs.toList.filter (fun c => !c.isTextNode)).map
          (fun c => (c.tagName, rawText c)))
  | .nil => by intro acc _ _ _; simp [branchesFold, NodeList.toList]
  | .cons c rest => by
      intro acc hnd hfresh hgood
      cases c with
      | text d =>
          have htl : (NodeList.cons (.text d) rest).toList.filter (fun c => !c.isTextNode)
              = rest.toList.filter (fun c => !c.isTextNode) := by
            simp [NodeList.toList, List.filter_cons, Node.isTextNode]
          simp only [htl] at hnd hfresh hgood ⊢
          simp only [branchesFold]
          exact branchesFold_eq rest acc hnd hfresh hgood
      | elem ln as cs2 =>
          have htl : (NodeList.cons (.elem ln as cs2) rest).toList.filter
                (fun c => !c.isTextNode)
              = (Node.elem ln as cs2) :: rest.toList.filter (fun c => !c.isTextNode) := by
            simp [NodeList.toList, List.filter_cons, Node.isTextNode]
          simp only [htl] at hnd hfresh hgood ⊢
          simp only [List.map_cons, List.nodup_cons] at hnd
          obtain ⟨hn1, hn2⟩ := hnd
          obtain ⟨d0, hd0⟩ := hgood (.elem ln as cs2) (by simp)
          have hnm : Node.tagName (.elem ln as cs2) ∉ acc.map Prod.fst := hfresh _ (by simp)
          simp only [branchesFold, hd0, exceptBind_ok]
          rw [show dictSet acc ln d0 = acc ++ [(ln, d0)] from
            dictSet_eq_append acc ln d0 (by simpa [Node.tagName] using hnm)]
          have hfresh' : ∀ c' ∈ rest.toList.filter (fun c => !c.isTextNode),
              Node.tagName c' ∉ ((acc ++ [(ln, d0)]).map Prod.fst) := by
            intro c' hc'
            have h1 : Node.tagName c' ∉ acc.map Prod.fst :=
              hfresh c' (List.mem_cons_of_mem _ hc')
            have h2 : Node.tagName c' ≠ ln := by
              intro he
              apply hn1
              have hm' := List.mem_map_of_mem Node.tagName hc'
              rw [he] at hm'
              exact hm'
            simp [List.map_append, h1, h2]
          have hgood' : ∀ c' ∈ rest.toList.filter (fun c => !c.isTextNode),
              ∃ d, firstChildData c' = .ok d :=
            fun c' hc' => hgood c' (List.mem_cons_of_mem _ hc')
          rw [branchesFold_eq rest (acc ++ [(ln, d0)]) hn2 hfresh' hgood']
          have hraw : rawText (.elem ln as cs2) = d0 := by simp [rawText, hd0]
          simp [hraw, Node.tagName, List.append_assoc]

/-- Claim C7: `RepositoryEndpoint.branches` returns a plain mapping built
directly from the fetched document's root: one entry per non-text child,
keyed by the child's tag name and holding the child's raw first-child
text.  Neither `_parse` nor the `_types` registry takes part: `branches`
and its loop are defined without any reference to them, and the entries
are the unconverted character data. -/
theorem branches_raw_mapping (fetch : String → Except Err Node) (u r : String) (doc : Node)
    (hf : fetch (branchesPath u r) = .ok doc)
    (hnd : ((doc.childNodes.toList.filter (fun c => !c.isTextNode)).map Node.tagName).Nodup)
    (hgood : ∀ c ∈ doc.childNodes.toList.filter (fun c => !c.isTextNode),
        ∃ d, firstChildData c = .ok d) :
    branches fetch u r
      = .ok ((doc.childNodes.toList.filter (fun c => !c.isTextNode)).map
          (fun c => (c.tagName, rawText c))) := by
  simp only [branches, hf, exceptBind_ok]
  rw [branchesFold_eq doc.childNodes [] hnd (fun c hc => by simp) hgood]
  rfl

/-- Claim C7, witness: a branch document with two branch children and an
interleaved text node maps to the raw name/text pairs — note the commit
ids stay unconverted strings. -/
theorem branches_raw_mapping_witness :
    branches
      (fun _ => .ok (.elem "branches" []
        (.cons (.elem "master" [] (.cons (.text "abc123") .nil))
          (.cons (.text "junk")
            (.cons (.elem "dev" [] (.cons (.text "def456") .nil)) .nil)))))
      "dustin" "py-github"
      = .ok [("master", "abc123"), ("dev", "def456")] := by
  refine (branches_raw_mapping
    (fun _ => .ok (.elem "branches" []
      (.cons (.elem "master" [] (.cons (.text "abc123") .nil))
        (.cons (.text "junk")
          (.cons (.elem "dev" [] (.cons (.text "def456") .nil)) .nil)))))
    "dustin" "py-github"
    (.elem "branches" []
      (.cons (.elem "master" [] (.cons (.text "abc123") .nil))
        (.cons (.text "junk")
          (.cons (.elem "dev" [] (.cons (.text "def456") .nil)) .nil))))
    rfl (by decide) ?_).trans rfl
  intro c hc
  have he : ((Node.elem "branches" []
      (.cons (.elem "master" [] (.cons (.text "abc123") .nil))
        (.cons (.text "junk")
          (.cons (.elem "dev" [] (.cons (.text "def456") .nil)) .nil)))
      : Node).childNodes.toList.filter (fun c => !c.isTextNode))
      = [Node.elem "master" [] (.cons (.text "abc123") .nil),
         Node.elem "dev" [] (.cons (.text "def456") .nil)] := rfl
  rw [he] at hc
  simp only [List.mem_cons, List.not_mem_nil, or_false] at hc
  rcases hc with rfl | rfl
  · exact ⟨"abc123", rfl⟩
  · exact ⟨"def456", rfl⟩

theorem pctEncode_chars (c x : Char) (hx : x ∈ pctEncode c) :
    x = '%' ∨ isAlwaysSafe x = true := by
  have hall : ∀ m, m < 16 → isAlwaysSafe (hexDigitChar m) = true := by decide
  simp only [pctEncode, List.mem_cons, List.not_mem_nil, or_false] at hx
  rcases hx with rfl | rfl | rfl
  · left; rfl
  · right; exact hall _ (by omega)
  · right; exact hall _ (by omega)

theorem pyQuoteChars_classify (safe : List Char) : ∀ (cs : List Char) (x : Char),
    x ∈ pyQuoteChars safe cs → isAlwaysSafe x = true ∨ x ∈ safe ∨ x = '%' := by
  intro cs
  induction cs with
  | nil => intro x hx; simp [pyQuoteChars] at hx
  | cons c rest ih =>
      intro x hx
      simp only [pyQuoteChars, List.mem_append] at hx
      rcases hx with hx | hx
      · by_cases hs : (isAlwaysSafe c || decide (c ∈ safe)) = true
        · rw [if_pos hs] at hx
          simp only [List.mem_cons, List.not_mem_nil, or_false] at hx
          subst hx
          rcases Bool.or_eq_true_iff.mp hs with h | h
          · exact Or.inl h
          · exact Or.inr (Or.inl (of_decide_eq_true h))
        · rw [if_neg hs] at hx
          rcases pctEncode_chars c x hx with h | h
          · exact Or.inr (Or.inr h)
          · exact Or.inl h
      · exact ih x hx

theorem pyQuotePlus_classify (s : String) (x : Char) (hx : x ∈ (pyQuotePlus s).data) :
    isAlwaysSafe x = true ∨ x = '+' ∨ x = '%' := by
  unfold pyQuotePlus at hx
  by_cases hsp : ' ' ∈ s.data
  · rw [if_pos hsp] at hx
    obtain ⟨y, hy, rfl⟩ := List.mem_map.mp hx
    rcases pyQuoteChars_classify [' '] s.data y hy with h | h | h
    · by_cases hy' : y = ' '
      · simp [hy']
      · simpa [hy'] using Or.inl h
    · simp only [List.mem_cons, List.not_mem_nil, or_false] at h
      simp [h]
    · subst h
      simp
  · rw [if_neg hsp] at hx
    rcases pyQuoteChars_classify [] s.data x hx with h | h | h
    · exact Or.inl h
    · simp at h
    · exact Or.inr (Or.inr h)

/-- Claim C8, counterexample.  The claim says both search operations
URL-escape the caller's query.  `UserEndpoint.search` concatenates the
raw query: for the query "dustin s" the built path keeps the literal
space and differs from the escaped form (only `RepositoryEndpoint.search`
applies `urllib.quote_plus`). -/
theorem user_search_unescaped_cex :
    userSearchPath "dustin s" = "user/search/dustin s"
    ∧ pyQuotePlus "dustin s" = "dustin+s"
    ∧ userSearchPath "dustin s" ≠ "user/search/" ++ pyQuotePlus "dustin s" :=
  ⟨rfl, by decide, by decide⟩

/-- Claim C8, amended: `RepositoryEndpoint.search` builds its path from the
fixed segment and the `quote_plus`-escaped term — every character of the
escaped term is URL-safe (alphanumeric or `_.-`), `+` or `%` — while
`UserEndpoint.search` concatenates the caller's query verbatim with no
escaping. -/
theorem search_path_escaping (q t : String) :
    userSearchPath q = "user/search/" ++ q
    ∧ repoSearchPath t = "repos/search/" ++ pyQuotePlus t
    ∧ ∀ x ∈ (pyQuotePlus t).data, isAlwaysSafe x = true ∨ x = '+' ∨ x = '%' :=
  ⟨rfl, rfl, fun x hx => pyQuotePlus_classify t x hx⟩

/-- Claim C8, witness: concrete paths for both endpoints and the character
classification at a sample character. -/
theorem search_path_escaping_witness :
    userSearchPath "dustin" = "user/search/dustin"
    ∧ repoSearchPath "a b" = "repos/search/a+b"
    ∧ (isAlwaysSafe 'a' = true ∨ 'a' = '+' ∨ 'a' = '%') :=
  ⟨(search_path_escaping "dustin" "a b").1,
   ((search_path_escaping "dustin" "a b").2.1).trans (by decide),
   (search_path_escaping "dustin" "a b").2.2 'a' (by decide)⟩
